import Mathlib

/-!
# Verification of the runway-ui core: image normalizer and job lifecycle

Shallow embedding of the core logic of `src/app.py` (the `app_help.py` and
`app_upd.py` variants contain byte-identical copies of the functions treated
here).

Modelling conventions:
* Python floats are modelled as exact rationals (`ℚ`); the float literals
  `2.0`, `0.5`, `1e-3` become `2`, `1/2`, `1/1000`.
* Python `round` (banker's rounding, round-half-to-even) is `bankerRound`.
* Python `//` (floor division) on integers is `Int.fdiv`.
* A PIL image is `PImage`: a width, a height, and a pixel map; `Image.new`
  followed by `paste` is `pasteOnCanvas` (the pasted region shows the source
  image, everything else the uniform pad colour).
* The `"w:h"` ratio strings of `ALLOWED_RATIOS` are modelled as `ℕ × ℕ`
  pairs; `ratio_to_float` is the `int(w)/int(h)` conversion.
* The task-status JSON bodies are `TaskResp` records; Python's truthiness
  (`a or b`) on `.get` results is `pyOrStr` / list truthiness in `getOutput`.
* The unbounded `while True:` poll loop of `poll_task` is embedded as a
  function over the finite prefix of responses actually observed, counting
  the HTTP polls and the `time.sleep(2)` calls; `PollResult.running` means
  the loop has consumed the whole prefix and is still iterating.
-/

namespace Runway

/-- An RGB pixel value. -/
abbrev Color : Type := ℕ × ℕ × ℕ

/-- A raster image: dimensions plus pixel content (queried at integer
coordinates; only coordinates inside the rectangle are meaningful). -/
structure PImage where
  width : ℕ
  height : ℕ
  pixel : ℤ → ℤ → Color

/-- `w / h` of an image, the Python expression `w / h` on floats. -/
def ratio (img : PImage) : ℚ := (img.width : ℚ) / (img.height : ℚ)

/-- Python `round`: round half to even (banker's rounding), as applied by
`int(round(x))` in `normalize_to_ratio_pad`. -/
def bankerRound (q : ℚ) : ℤ :=
  if q - ⌊q⌋ < 1/2 then ⌊q⌋
  else if 1/2 < q - ⌊q⌋ then ⌊q⌋ + 1
  else if 2 ∣ ⌊q⌋ then ⌊q⌋ else ⌊q⌋ + 1

/-- `canvas = Image.new("RGB", (cw, ch), pad); canvas.paste(src, (ox, oy))`:
the canvas holds the source image at offset `(ox, oy)` and the pad colour
everywhere else. -/
def pasteOnCanvas (cw ch : ℕ) (pad : Color) (src : PImage) (ox oy : ℤ) : PImage where
  width := cw
  height := ch
  pixel := fun x y =>
    if ox ≤ x ∧ x < ox + src.width ∧ oy ≤ y ∧ y < oy + src.height then
      src.pixel (x - ox) (y - oy)
    else pad

/-- The repeated pad-height idiom of `app.py`: new canvas of the same width
and height `newH`, source pasted at `(0, (newH - h)//2)`. -/
def padToHeight (pad : Color) (img : PImage) (newH : ℕ) : PImage :=
  pasteOnCanvas img.width newH pad img 0 (((newH : ℤ) - img.height).fdiv 2)

/-- The repeated pad-width idiom of `app.py`: new canvas of the same height
and width `newW`, source pasted at `((newW - w)//2, 0)`. -/
def padToWidth (pad : Color) (img : PImage) (newW : ℕ) : PImage :=
  pasteOnCanvas newW img.height pad img (((newW : ℤ) - img.width).fdiv 2) 0

/-- First phase of `normalize_to_ratio_pad` (`app.py` lines 29-42): clamp the
aspect ratio into `[0.5, 2.0]` by padding height (if `r > 2.0`) or width
(if `r < 0.5`).  Note that it does not depend on the target ratio. -/
def clampPhase (pad : Color) (img : PImage) : PImage :=
  if ratio img > 2 then
    padToHeight pad img (bankerRound ((img.width : ℚ) / 2)).toNat
  else if ratio img < 1/2 then
    padToWidth pad img (bankerRound ((img.height : ℚ) * (1/2))).toNat
  else img

/-- Second phase of `normalize_to_ratio_pad` (`app.py` lines 44-57): if the
current ratio differs from the target by more than `1e-3`, pad height
(too wide) or width (too tall) towards the exact target ratio. -/
def ratioMatch (t : ℚ) (pad : Color) (img : PImage) : PImage :=
  if |ratio img - t| > 1/1000 then
    if ratio img > t then
      padToHeight pad img (bankerRound ((img.width : ℚ) / t)).toNat
    else
      padToWidth pad img (bankerRound ((img.height : ℚ) * t)).toNat
  else img

/-- `normalize_to_ratio_pad` (`app.py` lines 27-57): clamp, then match. -/
def normalize_to_ratio_pad (img : PImage) (t : ℚ) (pad : Color) : PImage :=
  ratioMatch t pad (clampPhase pad img)

/-- `ratio_to_float` (`app.py` lines 59-61), with the `"w:h"` string already
split into its two integer components. -/
def ratio_to_float (p : ℕ × ℕ) : ℚ := (p.1 : ℚ) / (p.2 : ℚ)

/-- `ALLOWED_RATIOS` (`app.py` line 8), each `"w:h"` string as a pair. -/
def ALLOWED_RATIOS : List (ℕ × ℕ) :=
  [(1280, 720), (720, 1280), (1104, 832), (832, 1104), (960, 960), (1584, 672)]

/-- The target-ratio values obtained from the allowed list. -/
def allowedRatioValues : List ℚ := ALLOWED_RATIOS.map ratio_to_float

/-- The default white pad colour `(255,255,255)`. -/
def whiteC : Color := (255, 255, 255)

/-- A uniform test image of the given dimensions. -/
def constImg (w h : ℕ) : PImage := ⟨w, h, fun _ _ => (0, 0, 0)⟩

/-- Python truthiness of `js.get(key)` for a string field: `None` and the
empty string are falsy. -/
def strTruthy : Option String → Bool
  | none => false
  | some s => !s.isEmpty

/-- Python `a or b` on two `js.get` string results. -/
def pyOrStr (a b : Option String) : Option String :=
  if strTruthy a then a else b

/-- Python truthiness of `js.get(key)` for a list field: `None` and the
empty list are falsy. -/
def listTruthy : Option (List String) → Bool
  | none => false
  | some l => !l.isEmpty

/-- A task-status response body, with the four fields `poll_task` reads:
`status`, `state`, `output` and `result.output`.  The record itself stands
for the raw JSON payload `js`. -/
structure TaskResp where
  status : Option String
  state : Option String
  output : Option (List String)
  resultOutput : Option (List String)
deriving DecidableEq

/-- `state = js.get("status") or js.get("state")` (`app.py` line 102). -/
def getState (js : TaskResp) : Option String := pyOrStr js.status js.state

/-- `output = js.get("output") or js.get("result",{}).get("output") or []`
(`app.py` line 104). -/
def getOutput (js : TaskResp) : List String :=
  if listTruthy js.output then js.output.getD []
  else if listTruthy js.resultOutput then js.resultOutput.getD []
  else []

/-- The three classes a polled response falls into. -/
inductive StatusClass
  | success
  | failure
  | pending
deriving DecidableEq

/-- The classification performed by the two `if state in (...)` tests of
`poll_task` (`app.py` lines 103 and 106): exact membership in
`("SUCCEEDED","COMPLETED","succeeded")`, then in
`("FAILED","ERROR","CANCELLED")`, else fall through to the next loop
iteration (pending). -/
def classifyState (st : Option String) : StatusClass :=
  if st = some "SUCCEEDED" ∨ st = some "COMPLETED" ∨ st = some "succeeded" then
    StatusClass.success
  else if st = some "FAILED" ∨ st = some "ERROR" ∨ st = some "CANCELLED" then
    StatusClass.failure
  else StatusClass.pending

/-- Classification of a bare status string (a response whose `status` field
carries the string). -/
def classify (s : String) : StatusClass := classifyState (some s)

/-- Outcome of running the poll loop over a finite prefix of responses.
`polls` counts HTTP GETs issued, `sleeps` counts `time.sleep(2)` calls.
`running` means every observed response was consumed without reaching a
`return` or `raise`: the `while True:` loop is still iterating. -/
inductive PollResult
  | succeeded (out : List String) (polls sleeps : ℕ)
  | failed (js : TaskResp) (polls sleeps : ℕ)
  | running (polls sleeps : ℕ)
deriving DecidableEq

/-- `poll_task` (`app.py` lines 92-108): the unbounded `while True:` loop,
run along a finite list of observed responses.  On a success-class state it
returns the extracted output; on a failure-class state it raises, carrying
the raw payload `js`; otherwise it sleeps 2 seconds and polls again. -/
def poll_task : List TaskResp → ℕ → ℕ → PollResult
  | [], polls, sleeps => PollResult.running polls sleeps
  | js :: rest, polls, sleeps =>
    match classifyState (getState js) with
    | StatusClass.success => PollResult.succeeded (getOutput js) (polls + 1) sleeps
    | StatusClass.failure => PollResult.failed js (polls + 1) sleeps
    | StatusClass.pending => poll_task rest (polls + 1) (sleeps + 1)

/-- The lifecycle vocabulary of the specification (section 4.4):
`Created → Pending → {Succeeded, Failed, TimedOut}`.  `TimedOut` is part of
the spec's vocabulary only; the code below never produces it. -/
inductive LifecycleState
  | Created
  | Pending
  | Succeeded
  | Failed
  | TimedOut
deriving DecidableEq

/-- The lifecycle state the controller is in after observing a finite
sequence of responses: a success return is `Succeeded`, a raise is `Failed`,
and an exhausted observation prefix leaves the loop still running, i.e.
the job still `Pending` client-side. -/
def controllerState (l : List TaskResp) : LifecycleState :=
  match poll_task l 0 0 with
  | PollResult.succeeded _ _ _ => LifecycleState.Succeeded
  | PollResult.failed _ _ _ => LifecycleState.Failed
  | PollResult.running _ _ => LifecycleState.Pending

/-- A response whose state is an in-progress marker. -/
def pendingResp : TaskResp := ⟨some "RUNNING", none, none, none⟩

/-- A response carrying a terminal-failure state. -/
def failedResp : TaskResp := ⟨some "FAILED", none, none, none⟩

/-- The `promptImage` field of the submission body: a bare URI string, or a
list of `{uri, position}` objects (`app.py` lines 80-87). -/
inductive PromptImage
  | single (uri : String)
  | multi (arr : List (String × String))
deriving DecidableEq

/-- Assembly of the `promptImage` field (`app.py` lines 80-87): one image
gives the bare URI; more than one gives `[{uri0, "first"}, {uri1, "last"},
...]`.  An empty list makes `prompt_images[0]` raise `IndexError`, modelled
as `none`. -/
def buildPromptImage : List String → Option PromptImage
  | [] => none
  | [u] => some (PromptImage.single u)
  | u :: rest =>
    some (PromptImage.multi ((u, "first") :: rest.map (fun v => (v, "last"))))

/-- The JSON body assembled by `start_task` (`app.py` lines 73-87). -/
structure Payload where
  model : String
  promptText : String
  ratio : String
  duration : ℤ
  seed : ℤ
  promptImage : PromptImage
deriving DecidableEq

/-- `start_task` (`app.py` lines 63-90), up to the network call: the request
body it submits.  The `seed` field is the hard-coded literal `123456789`
(`app.py` line 78); `start_task` has no seed parameter. -/
def start_task (model ratioStr : String) (duration : ℤ) (prompt_text : String)
    (prompt_images : List String) : Option Payload :=
  (buildPromptImage prompt_images).map fun pi =>
    { model := model
      promptText := prompt_text
      ratio := ratioStr
      duration := duration
      seed := 123456789
      promptImage := pi }

/-- The UI submit action (`app.py` line 174): the `seed` widget value
(line 140) is in scope but never passed to `start_task`. -/
def uiSubmit (uiSeed : ℤ) (model ratioStr : String) (duration : ℤ)
    (prompt : String) (dataUris : List String) : Option Payload :=
  start_task model ratioStr duration prompt dataUris

/-- A concrete payload used to witness the seed property. -/
def payloadA : Payload :=
  ⟨"gen4_turbo", "p", "1280:720", 10, 123456789, PromptImage.single "u"⟩

/-! ### Basic lemmas about `bankerRound` -/

theorem bankerRound_intCast (n : ℤ) : bankerRound (n : ℚ) = n := by
  unfold bankerRound
  rw [Int.floor_intCast]
  norm_num

theorem bankerRound_natCast (n : ℕ) : bankerRound (n : ℚ) = n := by
  have h := bankerRound_intCast (n : ℤ)
  rwa [Int.cast_natCast] at h

theorem le_bankerRound (q : ℚ) : (⌊q⌋ : ℤ) ≤ bankerRound q := by
  unfold bankerRound
  split_ifs <;> omega

theorem bankerRound_le (q : ℚ) : bankerRound q ≤ ⌊q⌋ + 1 := by
  unfold bankerRound
  split_ifs <;> omega

theorem abs_bankerRound_sub (q : ℚ) : |(bankerRound q : ℚ) - q| ≤ 1/2 := by
  have hfl : (⌊q⌋ : ℚ) ≤ q := Int.floor_le q
  have hfu : q < ⌊q⌋ + 1 := Int.lt_floor_add_one q
  unfold bankerRound
  split_ifs with h1 h2 h3 <;> rw [abs_le] <;> push_cast <;> constructor <;> linarith

theorem bankerRound_nonneg (q : ℚ) (hq : 0 ≤ q) : 0 ≤ bankerRound q := by
  have h := le_bankerRound q
  have : (0 : ℤ) ≤ ⌊q⌋ := Int.floor_nonneg.2 hq
  omega

theorem bankerRound_eq_of_lt_half (q : ℚ) (n : ℤ) (h1 : (n : ℚ) ≤ q)
    (h2 : q < (n : ℚ) + 1/2) : bankerRound q = n := by
  have hfl : ⌊q⌋ = n := by
    rw [Int.floor_eq_iff]
    constructor
    · exact_mod_cast h1
    · push_cast
      linarith
  unfold bankerRound
  rw [hfl, if_pos]
  linarith

theorem bankerRound_eq_of_gt_half (q : ℚ) (n : ℤ) (h1 : (n : ℚ) - 1/2 < q)
    (h2 : q ≤ (n : ℚ)) : bankerRound q = n := by
  rcases eq_or_lt_of_le h2 with heq | hlt
  · rw [heq, bankerRound_intCast]
  · have hfl : ⌊q⌋ = n - 1 := by
      rw [Int.floor_eq_iff]
      push_cast
      constructor <;> linarith
    unfold bankerRound
    rw [hfl, if_neg, if_pos]
    · omega
    · push_cast
      linarith
    · push_cast
      linarith

theorem bankerRound_half_of_even (n : ℤ) (h : 2 ∣ n) :
    bankerRound ((n : ℚ) + 1/2) = n := by
  have hfl : ⌊(n : ℚ) + 1/2⌋ = n := by
    rw [Int.floor_eq_iff]
    push_cast
    constructor <;> linarith
  unfold bankerRound
  rw [hfl, if_neg, if_neg, if_pos h]
  · push_cast
    linarith
  · push_cast
    linarith

theorem bankerRound_half_of_odd (n : ℤ) (h : ¬ 2 ∣ n) :
    bankerRound ((n : ℚ) + 1/2) = n + 1 := by
  have hfl : ⌊(n : ℚ) + 1/2⌋ = n := by
    rw [Int.floor_eq_iff]
    push_cast
    constructor <;> linarith
  unfold bankerRound
  rw [hfl, if_neg, if_neg, if_neg h]
  · push_cast
    linarith
  · push_cast
    linarith

/-! ### Dimension lemmas for the padding operations -/

@[simp] theorem pasteOnCanvas_width (cw ch : ℕ) (pad : Color) (src : PImage)
    (ox oy : ℤ) : (pasteOnCanvas cw ch pad src ox oy).width = cw := rfl

@[simp] theorem pasteOnCanvas_height (cw ch : ℕ) (pad : Color) (src : PImage)
    (ox oy : ℤ) : (pasteOnCanvas cw ch pad src ox oy).height = ch := rfl

@[simp] theorem padToHeight_width (pad : Color) (img : PImage) (newH : ℕ) :
    (padToHeight pad img newH).width = img.width := rfl

@[simp] theorem padToHeight_height (pad : Color) (img : PImage) (newH : ℕ) :
    (padToHeight pad img newH).height = newH := rfl

@[simp] theorem padToWidth_width (pad : Color) (img : PImage) (newW : ℕ) :
    (padToWidth pad img newW).width = newW := rfl

@[simp] theorem padToWidth_height (pad : Color) (img : PImage) (newW : ℕ) :
    (padToWidth pad img newW).height = img.height := rfl

@[simp] theorem constImg_width (w h : ℕ) : (constImg w h).width = w := rfl

@[simp] theorem constImg_height (w h : ℕ) : (constImg w h).height = h := rfl

/-! ### Unfolding lemmas for the two phases -/

theorem clampPhase_of_wide (pad : Color) (img : PImage) (h : ratio img > 2) :
    clampPhase pad img
      = padToHeight pad img (bankerRound ((img.width : ℚ) / 2)).toNat := by
  rw [clampPhase, if_pos h]

theorem clampPhase_of_tall (pad : Color) (img : PImage) (h1 : ¬ ratio img > 2)
    (h2 : ratio img < 1/2) :
    clampPhase pad img
      = padToWidth pad img (bankerRound ((img.height : ℚ) * (1/2))).toNat := by
  rw [clampPhase, if_neg h1, if_pos h2]

theorem clampPhase_of_inrange (pad : Color) (img : PImage)
    (h1 : ¬ ratio img > 2) (h2 : ¬ ratio img < 1/2) :
    clampPhase pad img = img := by
  rw [clampPhase, if_neg h1, if_neg h2]

theorem ratioMatch_of_near (t : ℚ) (pad : Color) (img : PImage)
    (h : ¬ |ratio img - t| > 1/1000) : ratioMatch t pad img = img := by
  rw [ratioMatch, if_neg h]

theorem ratioMatch_of_far_wide (t : ℚ) (pad : Color) (img : PImage)
    (h1 : |ratio img - t| > 1/1000) (h2 : ratio img > t) :
    ratioMatch t pad img
      = padToHeight pad img (bankerRound ((img.width : ℚ) / t)).toNat := by
  rw [ratioMatch, if_pos h1, if_pos h2]

theorem ratioMatch_of_far_tall (t : ℚ) (pad : Color) (img : PImage)
    (h1 : |ratio img - t| > 1/1000) (h2 : ¬ ratio img > t) :
    ratioMatch t pad img
      = padToWidth pad img (bankerRound ((img.height : ℚ) * t)).toNat := by
  rw [ratioMatch, if_pos h1, if_neg h2]

/-! ### Pixel-content lemmas for the padding operations -/

theorem padToHeight_pixel (pad : Color) (img : PImage) (newH : ℕ)
    (x y : ℤ) (hx0 : 0 ≤ x) (hx : x < (img.width : ℤ))
    (hy0 : 0 ≤ y) (hy : y < (img.height : ℤ)) :
    (padToHeight pad img newH).pixel x (y + ((newH : ℤ) - img.height).fdiv 2)
      = img.pixel x y := by
  unfold padToHeight pasteOnCanvas
  simp only
  rw [if_pos]
  · norm_num
  · refine ⟨hx0, by simpa using hx, by omega, by omega⟩

theorem padToWidth_pixel (pad : Color) (img : PImage) (newW : ℕ)
    (x y : ℤ) (hx0 : 0 ≤ x) (hx : x < (img.width : ℤ))
    (hy0 : 0 ≤ y) (hy : y < (img.height : ℤ)) :
    (padToWidth pad img newW).pixel (x + ((newW : ℤ) - img.width).fdiv 2) y
      = img.pixel x y := by
  unfold padToWidth pasteOnCanvas
  simp only
  rw [if_pos]
  · norm_num
  · refine ⟨by omega, by omega, hy0, by simpa using hy⟩

/-! ### Positivity and ratio bounds -/

theorem ratio_gt_two_width (img : PImage) (hh : 1 ≤ img.height)
    (h : ratio img > 2) : 2 * img.height < img.width := by
  have hhq : (0 : ℚ) < (img.height : ℚ) := by exact_mod_cast hh
  rw [ratio, gt_iff_lt, lt_div_iff hhq] at h
  exact_mod_cast h

theorem ratio_lt_half_height (img : PImage) (hh : 1 ≤ img.height)
    (h : ratio img < 1/2) : 2 * img.width < img.height := by
  have hhq : (0 : ℚ) < (img.height : ℚ) := by exact_mod_cast hh
  rw [ratio, div_lt_iff hhq] at h
  have h2 : (img.width : ℚ) * 2 < (img.height : ℚ) := by linarith
  have h3 : img.width * 2 < img.height := by exact_mod_cast h2
  omega

theorem clampPhase_pos (pad : Color) (img : PImage)
    (hw : 1 ≤ img.width) (hh : 1 ≤ img.height) :
    1 ≤ (clampPhase pad img).width ∧ 1 ≤ (clampPhase pad img).height := by
  by_cases h1 : ratio img > 2
  · rw [clampPhase_of_wide pad img h1]
    refine ⟨by simpa using hw, ?_⟩
    simp only [padToHeight_height]
    have hw3 : 3 ≤ img.width := by
      have := ratio_gt_two_width img hh h1
      omega
    have hfl : (1 : ℤ) ≤ ⌊(img.width : ℚ) / 2⌋ := by
      rw [Int.le_floor]
      rw [le_div_iff (by norm_num : (0:ℚ) < 2)]
      have : (3 : ℚ) ≤ (img.width : ℚ) := by exact_mod_cast hw3
      push_cast
      linarith
    have := le_bankerRound ((img.width : ℚ) / 2)
    omega
  · by_cases h2 : ratio img < 1/2
    · rw [clampPhase_of_tall pad img h1 h2]
      refine ⟨?_, by simpa using hh⟩
      simp only [padToWidth_width]
      have hh3 : 3 ≤ img.height := by
        have := ratio_lt_half_height img hh h2
        omega
      have hfl : (1 : ℤ) ≤ ⌊(img.height : ℚ) * (1/2)⌋ := by
        rw [Int.le_floor]
        have : (3 : ℚ) ≤ (img.height : ℚ) := by exact_mod_cast hh3
        push_cast
        linarith
      have := le_bankerRound ((img.height : ℚ) * (1/2))
      omega
    · rw [clampPhase_of_inrange pad img h1 h2]
      exact ⟨hw, hh⟩

theorem allowed_bounds (t : ℚ) (ht : t ∈ allowedRatioValues) :
    0 < t ∧ t ≤ 33/14 := by
  simp only [allowedRatioValues, ALLOWED_RATIOS, ratio_to_float, List.map_cons,
    List.map_nil, List.mem_cons, List.not_mem_nil, or_false] at ht
  rcases ht with h | h | h | h | h | h <;> rw [h] <;> norm_num

/-! ### Poll-loop accumulator lemmas -/

theorem poll_task_all_pending (l : List TaskResp)
    (hp : ∀ js ∈ l, classifyState (getState js) = StatusClass.pending) :
    ∀ p s : ℕ, poll_task l p s = PollResult.running (p + l.length) (s + l.length) := by
  induction l with
  | nil => intro p s; simp [poll_task]
  | cons a rest ih =>
    intro p s
    have ha : classifyState (getState a) = StatusClass.pending :=
      hp a (List.mem_cons_self a rest)
    have hrest : ∀ js ∈ rest, classifyState (getState js) = StatusClass.pending :=
      fun js hjs => hp js (List.mem_cons_of_mem a hjs)
    simp only [poll_task, ha]
    rw [ih hrest (p + 1) (s + 1)]
    simp only [List.length_cons]
    congr 1 <;> omega

theorem poll_task_fail_first (js : TaskResp)
    (hf : classifyState (getState js) = StatusClass.failure) :
    ∀ (rest : List TaskResp) (p s : ℕ),
      poll_task (js :: rest) p s = PollResult.failed js (p + 1) s := by
  intro rest p s
  simp only [poll_task, hf]

theorem poll_task_skip_pending (pre : List TaskResp)
    (hp : ∀ x ∈ pre, classifyState (getState x) = StatusClass.pending)
    (tail : List TaskResp) :
    ∀ p s : ℕ, poll_task (pre ++ tail) p s
      = poll_task tail (p + pre.length) (s + pre.length) := by
  induction pre with
  | nil => intro p s; simp
  | cons a rest ih =>
    intro p s
    have ha : classifyState (getState a) = StatusClass.pending :=
      hp a (List.mem_cons_self a rest)
    have hrest : ∀ x ∈ rest, classifyState (getState x) = StatusClass.pending :=
      fun x hx => hp x (List.mem_cons_of_mem a hx)
    simp only [List.cons_append, poll_task, ha]
    refine Eq.trans (ih hrest (p + 1) (s + 1)) ?_
    simp only [List.length_cons]
    congr 1 <;> omega

/-- Bounds for Python `d // 2` with nonnegative `d`: the two pad margins
`d // 2` and `d - d // 2` split `d` as floor/ceil halves. -/
theorem fdivTwoBounds (d : ℤ) (hd : 0 ≤ d) :
    0 ≤ d.fdiv 2 ∧ d - d.fdiv 2 ≤ d.fdiv 2 + 1 ∧ d.fdiv 2 ≤ d - d.fdiv 2 := by
  lift d to ℕ using hd
  have hfd : ((d : ℤ)).fdiv 2 = ((d / 2 : ℕ) : ℤ) := by
    simpa using (Int.ofNat_fdiv d 2).symm
  rw [hfd]
  omega

/-! ### Claim C3: the clamp phase on images with ratio > 2.0 -/

/-- Counterexample to C3 as stated: the 5×1 image has ratio `5 > 2.0`, but
after the clamp phase the canvas is 5×2 (`int(round(5/2.0)) = 2` by
round-half-to-even), whose ratio `2.5` differs from `2.0` by `0.5`,
far beyond the claimed `1e-3`. -/
theorem c3_counterexample :
    ratio (constImg 5 1) > 2 ∧
    ¬ |ratio (clampPhase whiteC (constImg 5 1)) - 2| ≤ 1/1000 := by
  have hr : ratio (constImg 5 1) = 5 := by
    norm_num [ratio, constImg]
  have hbr : bankerRound (((constImg 5 1).width : ℚ) / 2) = 2 := by
    have h52 : (((constImg 5 1).width : ℚ) / 2) = ((2 : ℤ) : ℚ) + 1/2 := by
      norm_num [constImg]
    rw [h52]
    exact bankerRound_half_of_even 2 (by norm_num)
  have hcl : clampPhase whiteC (constImg 5 1)
      = padToHeight whiteC (constImg 5 1) 2 := by
    rw [clampPhase_of_wide _ _ (by rw [hr]; norm_num), hbr]
    rfl
  refine ⟨by rw [hr]; norm_num, ?_⟩
  rw [hcl]
  have h2 : ratio (padToHeight whiteC (constImg 5 1) 2) = 5/2 := by
    norm_num [ratio, constImg]
  rw [h2]
  have h3 : |(5/2 : ℚ) - 2| = 1/2 := by
    rw [show (5/2 : ℚ) - 2 = 1/2 by norm_num]
    exact abs_of_pos (by norm_num)
  rw [h3]
  norm_num

/-- C3 (amended): for every image with ratio strictly above 2.0, the clamp
phase keeps the width, sets the height to `round(w / 2.0)` (so the ratio is
2.0 only up to this integer rounding; it is within `1e-3` whenever the new
height is at least 1000 pixels — the 5×1 counterexample shows the bound
fails below that), and the original pixels appear unmodified, horizontally
unshifted and vertically centered: every original pixel reappears at
vertical offset `(newH - h) // 2`, and the top and bottom margins split the
added height as floor/ceil halves. -/
theorem c3_clamp_wide (pad : Color) (img : PImage)
    (hw : 1 ≤ img.width) (hh : 1 ≤ img.height) (hr : ratio img > 2) :
    (clampPhase pad img).width = img.width ∧
    ((clampPhase pad img).height : ℤ) = bankerRound ((img.width : ℚ) / 2) ∧
    (1000 ≤ (clampPhase pad img).height →
      |ratio (clampPhase pad img) - 2| ≤ 1/1000) ∧
    (∀ x y : ℤ, 0 ≤ x → x < (img.width : ℤ) → 0 ≤ y → y < (img.height : ℤ) →
      (clampPhase pad img).pixel x
        (y + (((clampPhase pad img).height : ℤ) - (img.height : ℤ)).fdiv 2)
        = img.pixel x y) ∧
    0 ≤ (((clampPhase pad img).height : ℤ) - (img.height : ℤ)).fdiv 2 ∧
    (((clampPhase pad img).height : ℤ) - (img.height : ℤ))
        - (((clampPhase pad img).height : ℤ) - (img.height : ℤ)).fdiv 2
      ≤ (((clampPhase pad img).height : ℤ) - (img.height : ℤ)).fdiv 2 + 1 := by
  have hcl := clampPhase_of_wide pad img hr
  have hbr0 : 0 ≤ bankerRound ((img.width : ℚ) / 2) :=
    bankerRound_nonneg _ (by positivity)
  have hW : (clampPhase pad img).width = img.width := by
    rw [hcl]; simp
  have hH : ((clampPhase pad img).height : ℤ) = bankerRound ((img.width : ℚ) / 2) := by
    rw [hcl]
    simp only [padToHeight_height]
    exact Int.toNat_of_nonneg hbr0
  have hHh : (img.height : ℤ) ≤ ((clampPhase pad img).height : ℤ) := by
    rw [hH]
    have h2h : 2 * img.height < img.width := ratio_gt_two_width img hh hr
    have hfl : (img.height : ℤ) ≤ ⌊(img.width : ℚ) / 2⌋ := by
      rw [Int.le_floor]
      rw [le_div_iff (by norm_num : (0:ℚ) < 2)]
      have hcast : ((2 * img.height : ℕ) : ℚ) ≤ ((img.width : ℕ) : ℚ) := by
        exact_mod_cast Nat.le_of_lt h2h
      push_cast at hcast ⊢
      linarith
    exact le_trans hfl (le_bankerRound _)
  have hd0 : 0 ≤ ((clampPhase pad img).height : ℤ) - (img.height : ℤ) := by omega
  have hdb := fdivTwoBounds _ hd0
  refine ⟨hW, hH, ?_, ?_, hdb.1, hdb.2.1⟩
  · intro h1000
    have hHq : |(((clampPhase pad img).height : ℤ) : ℚ) - (img.width : ℚ) / 2| ≤ 1/2 := by
      have habs := abs_bankerRound_sub ((img.width : ℚ) / 2)
      rw [← hH] at habs
      exact habs
    have hHpos : (0:ℚ) < ((clampPhase pad img).height : ℚ) := by
      have : 0 < (clampPhase pad img).height := by omega
      exact_mod_cast this
    have hratio : ratio (clampPhase pad img)
        = (img.width : ℚ) / ((clampPhase pad img).height : ℚ) := by
      rw [ratio, hW]
    rw [hratio]
    have hcast2 : (((clampPhase pad img).height : ℤ) : ℚ)
        = ((clampPhase pad img).height : ℚ) := by push_cast; rfl
    rw [hcast2] at hHq
    have key : (img.width : ℚ) / ((clampPhase pad img).height : ℚ) - 2
        = ((img.width : ℚ) - 2 * ((clampPhase pad img).height : ℚ))
            / ((clampPhase pad img).height : ℚ) := by
      field_simp
      ring
    rw [key, abs_div, abs_of_pos hHpos]
    have hnum : |(img.width : ℚ) - 2 * ((clampPhase pad img).height : ℚ)| ≤ 1 := by
      have hrw : (img.width : ℚ) - 2 * ((clampPhase pad img).height : ℚ)
          = -2 * (((clampPhase pad img).height : ℚ) - (img.width : ℚ) / 2) := by
        ring
      rw [hrw, abs_mul]
      have h2 : |(-2 : ℚ)| = 2 := by norm_num
      rw [h2]
      linarith
    have hH1000 : (1000:ℚ) ≤ ((clampPhase pad img).height : ℚ) := by
      exact_mod_cast h1000
    rw [div_le_div_iff hHpos (by norm_num : (0:ℚ) < 1000)]
    nlinarith [abs_nonneg ((img.width : ℚ) - 2 * ((clampPhase pad img).height : ℚ))]
  · intro x y hx0 hx hy0 hy
    rw [hcl]
    simp only [padToHeight_height]
    exact padToHeight_pixel pad img _ x y hx0 hx hy0 hy

/-- Witness for C3 (amended) at a concrete 3000×1000 image: ratio 3, clamp
pads the height to 1500, and the resulting ratio 2 is within `1e-3` of 2. -/
theorem c3_witness :
    (clampPhase whiteC (constImg 3000 1000)).width = 3000 ∧
    ((clampPhase whiteC (constImg 3000 1000)).height : ℤ)
      = bankerRound (((constImg 3000 1000).width : ℚ) / 2) ∧
    |ratio (clampPhase whiteC (constImg 3000 1000)) - 2| ≤ 1/1000 := by
  have h := c3_clamp_wide whiteC (constImg 3000 1000) (by norm_num [constImg])
    (by norm_num [constImg]) (by norm_num [ratio, constImg])
  have hbr : bankerRound (((constImg 3000 1000).width : ℚ) / 2) = 1500 := by
    have : (((constImg 3000 1000).width : ℚ) / 2) = ((1500 : ℤ) : ℚ) := by
      norm_num [constImg]
    rw [this, bankerRound_intCast]
  have hht : (clampPhase whiteC (constImg 3000 1000)).height = 1500 := by
    have h2 := h.2.1
    rw [hbr] at h2
    exact_mod_cast h2
  refine ⟨by simpa [constImg] using h.1, h.2.1, h.2.2.1 (by rw [hht]; norm_num)⟩

/-! ### Claim C4: the ratio-match phase against an allowed target ratio -/

/-- Counterexample to C4 as stated: the 1×1 image (ratio 1, inside
`[0.5, 2.0]`) with allowed target `1584:672 = 33/14` gets its width padded
to `int(round(1 * 33/14)) = 2`; the resulting ratio `2` differs from the
target by `5/14 ≈ 0.357`, far beyond the claimed `1e-3`. -/
theorem c4_counterexample :
    ratio_to_float (1584, 672) ∈ allowedRatioValues ∧
    1/2 ≤ ratio (constImg 1 1) ∧ ratio (constImg 1 1) ≤ 2 ∧
    ¬ |ratio (ratioMatch (ratio_to_float (1584, 672)) whiteC (constImg 1 1))
        - ratio_to_float (1584, 672)| ≤ 1/1000 := by
  have ht : ratio_to_float (1584, 672) = 33/14 := by
    norm_num [ratio_to_float]
  have hmem : ratio_to_float (1584, 672) ∈ allowedRatioValues := by
    simp [allowedRatioValues, ALLOWED_RATIOS]
  have hr11 : ratio (constImg 1 1) = 1 := by
    norm_num [ratio, constImg]
  have hfar : |ratio (constImg 1 1) - ratio_to_float (1584, 672)| > 1/1000 := by
    rw [hr11, ht, show (1:ℚ) - 33/14 = -(19/14) by norm_num, abs_neg,
      abs_of_pos (by norm_num : (0:ℚ) < 19/14)]
    norm_num
  have hnotgt : ¬ ratio (constImg 1 1) > ratio_to_float (1584, 672) := by
    rw [hr11, ht]
    norm_num
  have hbr : bankerRound (((constImg 1 1).height : ℚ) * ratio_to_float (1584, 672)) = 2 := by
    rw [ht, show (((constImg 1 1).height : ℚ) * (33/14)) = 33/14 by norm_num [constImg]]
    exact bankerRound_eq_of_lt_half (33/14) 2 (by norm_num) (by norm_num)
  have hrm : ratioMatch (ratio_to_float (1584, 672)) whiteC (constImg 1 1)
      = padToWidth whiteC (constImg 1 1) 2 := by
    rw [ratioMatch_of_far_tall _ _ _ hfar hnotgt, hbr]
    rfl
  refine ⟨hmem, by rw [hr11]; norm_num, by rw [hr11]; norm_num, ?_⟩
  rw [hrm, ht]
  have h2 : ratio (padToWidth whiteC (constImg 1 1) 2) = 2 := by
    norm_num [ratio, constImg]
  rw [h2, show (2:ℚ) - 33/14 = -(5/14) by norm_num, abs_neg,
    abs_of_pos (by norm_num : (0:ℚ) < 5/14)]
  norm_num

/-- C4 (amended): for every allowed target ratio and every clamped image,
the ratio-match phase brings the ratio within `1e-3` of the target provided
the resulting height is at least 1250 pixels (the padded side is only the
nearest integer to the exact target dimension, so for small canvases —
like the 1×1 counterexample — the integer rounding dominates `1e-3`). -/
theorem c4_ratio_match (pad : Color) (t : ℚ) (ht : t ∈ allowedRatioValues)
    (img : PImage) (hw : 1 ≤ img.width) (hh : 1 ≤ img.height)
    (hlo : 1/2 ≤ ratio img) (hhi : ratio img ≤ 2)
    (hbig : 1250 ≤ (ratioMatch t pad img).height) :
    |ratio (ratioMatch t pad img) - t| ≤ 1/1000 := by
  obtain ⟨ht0, ht33⟩ := allowed_bounds t ht
  by_cases hfar : |ratio img - t| > 1/1000
  · by_cases hgt : ratio img > t
    · rw [ratioMatch_of_far_wide t pad img hfar hgt] at hbig ⊢
      simp only [padToHeight_height] at hbig
      have hbr0 : 0 ≤ bankerRound ((img.width : ℚ) / t) :=
        bankerRound_nonneg _ (by positivity)
      have h2 : (((bankerRound ((img.width : ℚ) / t)).toNat : ℕ) : ℤ)
          = bankerRound ((img.width : ℚ) / t) := Int.toNat_of_nonneg hbr0
      have hHq : (((bankerRound ((img.width : ℚ) / t)).toNat : ℕ) : ℚ)
          = ((bankerRound ((img.width : ℚ) / t) : ℤ) : ℚ) := by
        exact_mod_cast congrArg (fun z : ℤ => (z : ℚ)) h2
      have habs : |(((bankerRound ((img.width : ℚ) / t)).toNat : ℕ) : ℚ)
          - (img.width : ℚ) / t| ≤ 1/2 := by
        rw [hHq]
        exact abs_bankerRound_sub _
      have hHpos : (0:ℚ) < (((bankerRound ((img.width : ℚ) / t)).toNat : ℕ) : ℚ) := by
        have : 0 < (bankerRound ((img.width : ℚ) / t)).toNat := by omega
        exact_mod_cast this
      have hratio : ratio (padToHeight pad img (bankerRound ((img.width : ℚ) / t)).toNat)
          = (img.width : ℚ) / (((bankerRound ((img.width : ℚ) / t)).toNat : ℕ) : ℚ) := by
        rw [ratio]
        simp
      rw [hratio]
      set Hq : ℚ := (((bankerRound ((img.width : ℚ) / t)).toNat : ℕ) : ℚ) with hHdef
      have key : (img.width : ℚ) / Hq - t = ((img.width : ℚ) - t * Hq) / Hq := by
        field_simp
        ring
      rw [key, abs_div, abs_of_pos hHpos]
      have hnum : |(img.width : ℚ) - t * Hq| ≤ t/2 := by
        have hrw : (img.width : ℚ) - t * Hq = -t * (Hq - (img.width : ℚ)/t) := by
          field_simp
          ring
        rw [hrw, abs_mul, show |(-t : ℚ)| = t by rw [abs_neg, abs_of_pos ht0]]
        have := mul_le_mul_of_nonneg_left habs (le_of_lt ht0)
        linarith
      have hH1250 : (1250:ℚ) ≤ Hq := by
        rw [hHdef]
        exact_mod_cast hbig
      have step1 : |(img.width : ℚ) - t * Hq| / Hq ≤ (t/2) / Hq :=
        (div_le_div_right hHpos).2 hnum
      have step2 : (t/2) / Hq ≤ (33/28) / 1250 :=
        div_le_div (by norm_num) (by linarith) (by norm_num) hH1250
      have step3 : ((33:ℚ)/28) / 1250 ≤ 1/1000 := by norm_num
      linarith
    · rw [ratioMatch_of_far_tall t pad img hfar hgt] at hbig ⊢
      simp only [padToWidth_height] at hbig
      have hbr0 : 0 ≤ bankerRound ((img.height : ℚ) * t) :=
        bankerRound_nonneg _ (by positivity)
      have h2 : (((bankerRound ((img.height : ℚ) * t)).toNat : ℕ) : ℤ)
          = bankerRound ((img.height : ℚ) * t) := Int.toNat_of_nonneg hbr0
      have hWq : (((bankerRound ((img.height : ℚ) * t)).toNat : ℕ) : ℚ)
          = ((bankerRound ((img.height : ℚ) * t) : ℤ) : ℚ) := by
        exact_mod_cast congrArg (fun z : ℤ => (z : ℚ)) h2
      have habs : |(((bankerRound ((img.height : ℚ) * t)).toNat : ℕ) : ℚ)
          - (img.height : ℚ) * t| ≤ 1/2 := by
        rw [hWq]
        exact abs_bankerRound_sub _
      have hhpos : (0:ℚ) < (img.height : ℚ) := by
        have : 0 < img.height := by omega
        exact_mod_cast this
      have hratio : ratio (padToWidth pad img (bankerRound ((img.height : ℚ) * t)).toNat)
          = (((bankerRound ((img.height : ℚ) * t)).toNat : ℕ) : ℚ) / (img.height : ℚ) := by
        rw [ratio]
        simp
      rw [hratio]
      set Wq : ℚ := (((bankerRound ((img.height : ℚ) * t)).toNat : ℕ) : ℚ) with hWdef
      have key : Wq / (img.height : ℚ) - t
          = (Wq - (img.height : ℚ) * t) / (img.height : ℚ) := by
        field_simp
      rw [key, abs_div, abs_of_pos hhpos]
      have hh1250 : (1250:ℚ) ≤ (img.height : ℚ) := by exact_mod_cast hbig
      have step1 : |Wq - (img.height : ℚ) * t| / (img.height : ℚ)
          ≤ (1/2) / (img.height : ℚ) := (div_le_div_right hhpos).2 habs
      have step2 : ((1:ℚ)/2) / (img.height : ℚ) ≤ (1/2) / 1250 :=
        div_le_div (by norm_num) (by norm_num) (by norm_num) hh1250
      have step3 : ((1:ℚ)/2) / 1250 ≤ 1/1000 := by norm_num
      linarith
  · rw [ratioMatch_of_near t pad img hfar]
    exact not_lt.1 hfar

/-- Witness for C4 (amended): the 1500×1500 image with allowed target
`960:960 = 1` is already within tolerance, so the phase is a no-op and the
resulting ratio equals the target exactly. -/
theorem c4_witness :
    (1 : ℚ) ∈ allowedRatioValues ∧
    |ratio (ratioMatch 1 whiteC (constImg 1500 1500)) - 1| ≤ 1/1000 := by
  have hmem : (1:ℚ) ∈ allowedRatioValues := by
    simp only [allowedRatioValues, ALLOWED_RATIOS, List.map_cons, List.map_nil,
      List.mem_cons, List.not_mem_nil, or_false]
    refine Or.inr (Or.inr (Or.inr (Or.inr (Or.inl ?_))))
    norm_num [ratio_to_float]
  refine ⟨hmem, c4_ratio_match whiteC 1 hmem (constImg 1500 1500)
    (by norm_num [constImg]) (by norm_num [constImg])
    (by norm_num [ratio, constImg]) (by norm_num [ratio, constImg]) ?_⟩
  rw [ratioMatch_of_near 1 whiteC (constImg 1500 1500)
    (by norm_num [ratio, constImg])]
  norm_num [constImg]

/-! ### Claim C5: the clamp phase is a no-op on images with ratio in [0.5, 2.0] -/

/-- C5 (confirmed): for every image whose width/height ratio lies in
`[0.5, 2.0]`, the clamp phase of `normalize_to_ratio_pad` is a no-op — the
returned image is the input itself (same ratio, pixel-identical), since both
the `r > 2.0` and `r < 0.5` branches are skipped. -/
theorem c5_clamp_noop (pad : Color) (img : PImage)
    (hlo : 1/2 ≤ ratio img) (hhi : ratio img ≤ 2) :
    clampPhase pad img = img :=
  clampPhase_of_inrange pad img (not_lt.2 hhi) (not_lt.2 hlo)

/-- Witness for C5 at a concrete 100×100 image. -/
theorem c5_witness :
    clampPhase whiteC (constImg 100 100) = constImg 100 100 :=
  c5_clamp_noop whiteC (constImg 100 100)
    (by norm_num [ratio, constImg]) (by norm_num [ratio, constImg])

/-! ### Claim C1: idempotence of normalization -/

/-- Counterexample to C1 as stated: with the allowed target ratio
`1584:672 = 33/14 ≈ 2.357` (which lies above the clamp bound 2.0), applying
`normalize_to_ratio_pad` to the 1584×672 image once gives a 1867×792 canvas,
but applying it twice gives a 2202×934 canvas: the first output's ratio
exceeds 2.0, so the second application clamps and pads again.  Normalization
is therefore not idempotent. -/
theorem c1_counterexample :
    normalize_to_ratio_pad
        (normalize_to_ratio_pad (constImg 1584 672) (ratio_to_float (1584, 672)) whiteC)
        (ratio_to_float (1584, 672)) whiteC
      ≠ normalize_to_ratio_pad (constImg 1584 672) (ratio_to_float (1584, 672)) whiteC := by
  have ht : ratio_to_float (1584, 672) = 33/14 := by
    norm_num [ratio_to_float]
  have h1 : clampPhase whiteC (constImg 1584 672)
      = padToHeight whiteC (constImg 1584 672) 792 := by
    rw [clampPhase_of_wide _ _ (by norm_num [ratio, constImg])]
    rw [show (((constImg 1584 672).width : ℚ) / 2) = ((792:ℤ):ℚ) by norm_num,
      bankerRound_intCast]
    rfl
  have h2 : ratioMatch (ratio_to_float (1584, 672)) whiteC
        (padToHeight whiteC (constImg 1584 672) 792)
      = padToWidth whiteC (padToHeight whiteC (constImg 1584 672) 792) 1867 := by
    have hrB : ratio (padToHeight whiteC (constImg 1584 672) 792) = 2 := by
      norm_num [ratio]
    rw [ratioMatch_of_far_tall _ _ _ ?hfar ?hgt]
    case hfar =>
      rw [hrB, ht, show (2:ℚ) - 33/14 = -(5/14) by norm_num, abs_neg,
        abs_of_pos (by norm_num : (0:ℚ) < 5/14)]
      norm_num
    case hgt =>
      rw [hrB, ht]
      norm_num
    have hb : bankerRound
        (((padToHeight whiteC (constImg 1584 672) 792).height : ℚ)
          * ratio_to_float (1584, 672)) = 1867 := by
      rw [ht, show (((padToHeight whiteC (constImg 1584 672) 792).height : ℚ)
          * (33/14)) = 26136/14 by norm_num]
      exact bankerRound_eq_of_gt_half (26136/14) 1867 (by norm_num) (by norm_num)
    rw [hb]
    rfl
  have hn1 : normalize_to_ratio_pad (constImg 1584 672) (ratio_to_float (1584, 672)) whiteC
      = padToWidth whiteC (padToHeight whiteC (constImg 1584 672) 792) 1867 := by
    rw [normalize_to_ratio_pad, h1, h2]
  have h3 : clampPhase whiteC
        (padToWidth whiteC (padToHeight whiteC (constImg 1584 672) 792) 1867)
      = padToHeight whiteC
          (padToWidth whiteC (padToHeight whiteC (constImg 1584 672) 792) 1867) 934 := by
    rw [clampPhase_of_wide _ _ (by norm_num [ratio])]
    have hb : bankerRound
        (((padToWidth whiteC (padToHeight whiteC (constImg 1584 672) 792) 1867).width : ℚ)
          / 2) = 934 := by
      rw [show (((padToWidth whiteC (padToHeight whiteC (constImg 1584 672) 792) 1867).width : ℚ)
          / 2) = ((933:ℤ):ℚ) + 1/2 by norm_num]
      rw [bankerRound_half_of_odd 933 (by omega)]
      norm_num
    rw [hb]
    rfl
  have h4 : ratioMatch (ratio_to_float (1584, 672)) whiteC
        (padToHeight whiteC
          (padToWidth whiteC (padToHeight whiteC (constImg 1584 672) 792) 1867) 934)
      = padToWidth whiteC
          (padToHeight whiteC
            (padToWidth whiteC (padToHeight whiteC (constImg 1584 672) 792) 1867) 934)
          2202 := by
    have hrC : ratio (padToHeight whiteC
        (padToWidth whiteC (padToHeight whiteC (constImg 1584 672) 792) 1867) 934)
        = 1867/934 := by
      norm_num [ratio]
    rw [ratioMatch_of_far_tall _ _ _ ?hfar ?hgt]
    case hfar =>
      rw [hrC, ht, show (1867:ℚ)/934 - 33/14 = -(1171/3269) by norm_num, abs_neg,
        abs_of_pos (by norm_num : (0:ℚ) < 1171/3269)]
      norm_num
    case hgt =>
      rw [hrC, ht]
      norm_num
    have hb : bankerRound
        (((padToHeight whiteC
            (padToWidth whiteC (padToHeight whiteC (constImg 1584 672) 792) 1867) 934).height : ℚ)
          * ratio_to_float (1584, 672)) = 2202 := by
      rw [ht, show (((padToHeight whiteC
          (padToWidth whiteC (padToHeight whiteC (constImg 1584 672) 792) 1867) 934).height : ℚ)
          * (33/14)) = 30822/14 by norm_num]
      exact bankerRound_eq_of_gt_half (30822/14) 2202 (by norm_num) (by norm_num)
    rw [hb]
    rfl
  have hn2 : normalize_to_ratio_pad
        (normalize_to_ratio_pad (constImg 1584 672) (ratio_to_float (1584, 672)) whiteC)
        (ratio_to_float (1584, 672)) whiteC
      = padToWidth whiteC
          (padToHeight whiteC
            (padToWidth whiteC (padToHeight whiteC (constImg 1584 672) 792) 1867) 934)
          2202 := by
    rw [normalize_to_ratio_pad, hn1, h3, h4]
  intro heq
  rw [hn2, hn1] at heq
  have hwidth := congrArg PImage.width heq
  simp only [padToWidth_width] at hwidth
  omega

/-- C1 (amended): normalization is idempotent for the allowed target ratio
`960:960` (value 1): every normalized image is either already within the
`1e-3` tolerance of ratio 1 or is padded to an exactly square canvas, and in
both cases a second application changes nothing.  (For allowed targets whose
value makes the rounded pad dimension land outside the tolerance — in
particular `1584:672 ≈ 2.357`, which exceeds the clamp bound 2.0 —
idempotence fails, as the counterexample shows.) -/
theorem c1_normalize_idem_square (pad : Color) (img : PImage)
    (hw : 1 ≤ img.width) (hh : 1 ≤ img.height) :
    normalize_to_ratio_pad
        (normalize_to_ratio_pad img (ratio_to_float (960, 960)) pad)
        (ratio_to_float (960, 960)) pad
      = normalize_to_ratio_pad img (ratio_to_float (960, 960)) pad := by
  have ht : ratio_to_float (960, 960) = 1 := by
    norm_num [ratio_to_float]
  rw [ht]
  show normalize_to_ratio_pad (ratioMatch 1 pad (clampPhase pad img)) 1 pad
      = ratioMatch 1 pad (clampPhase pad img)
  obtain ⟨hxw, hxh⟩ := clampPhase_pos pad img hw hh
  have hy : |ratio (ratioMatch 1 pad (clampPhase pad img)) - 1| ≤ 1/1000 := by
    by_cases hfar : |ratio (clampPhase pad img) - 1| > 1/1000
    · by_cases hgt : ratio (clampPhase pad img) > 1
      · rw [ratioMatch_of_far_wide 1 pad (clampPhase pad img) hfar hgt]
        have hb : (bankerRound (((clampPhase pad img).width : ℚ) / 1)).toNat
            = (clampPhase pad img).width := by
          rw [div_one, bankerRound_natCast, Int.toNat_natCast]
        rw [hb]
        have hr1 : ratio (padToHeight pad (clampPhase pad img) (clampPhase pad img).width)
            = 1 := by
          rw [ratio]
          simp only [padToHeight_width, padToHeight_height]
          exact div_self
            (by exact_mod_cast (by omega : (clampPhase pad img).width ≠ 0))
        rw [hr1]
        norm_num
      · rw [ratioMatch_of_far_tall 1 pad (clampPhase pad img) hfar hgt]
        have hb : (bankerRound (((clampPhase pad img).height : ℚ) * 1)).toNat
            = (clampPhase pad img).height := by
          rw [mul_one, bankerRound_natCast, Int.toNat_natCast]
        rw [hb]
        have hr1 : ratio (padToWidth pad (clampPhase pad img) (clampPhase pad img).height)
            = 1 := by
          rw [ratio]
          simp only [padToWidth_width, padToWidth_height]
          exact div_self
            (by exact_mod_cast (by omega : (clampPhase pad img).height ≠ 0))
        rw [hr1]
        norm_num
    · rw [ratioMatch_of_near 1 pad (clampPhase pad img) hfar]
      exact not_lt.1 hfar
  have habs := abs_le.1 hy
  have hy1 : ¬ ratio (ratioMatch 1 pad (clampPhase pad img)) > 2 := by
    intro hcon
    linarith [habs.2]
  have hy2 : ¬ ratio (ratioMatch 1 pad (clampPhase pad img)) < 1/2 := by
    intro hcon
    linarith [habs.1]
  have hy3 : ¬ |ratio (ratioMatch 1 pad (clampPhase pad img)) - 1| > 1/1000 :=
    not_lt.2 hy
  rw [normalize_to_ratio_pad, clampPhase_of_inrange pad _ hy1 hy2,
    ratioMatch_of_near 1 pad _ hy3]

/-- Witness for C1 (amended) at the 3×1 image: one application clamps to
3×2 and pads to the 3×3 square; a second application returns it unchanged. -/
theorem c1_witness :
    normalize_to_ratio_pad
        (normalize_to_ratio_pad (constImg 3 1) (ratio_to_float (960, 960)) whiteC)
        (ratio_to_float (960, 960)) whiteC
      = normalize_to_ratio_pad (constImg 3 1) (ratio_to_float (960, 960)) whiteC :=
  c1_normalize_idem_square whiteC (constImg 3 1) (by norm_num) (by norm_num)

/-! ### Claim C9: the concrete two-pass scenario -/

/-- C9 (confirmed): the 1280×720 image requesting `1280:720` is returned
unchanged by `normalize_to_ratio_pad`; the 2000×500 image (ratio 4.0)
requesting `960:960` goes through two passes — the clamp (which takes no
target-ratio argument, so its 2.0/0.5 bound is independent of the eventual
target) pads the height to 1000 giving ratio 2.0, then the ratio-match pads
the height again to 2000 giving ratio 1.0. -/
theorem c9_scenario :
    normalize_to_ratio_pad (constImg 1280 720) (ratio_to_float (1280, 720)) whiteC
      = constImg 1280 720 ∧
    (clampPhase whiteC (constImg 2000 500)).width = 2000 ∧
    (clampPhase whiteC (constImg 2000 500)).height = 1000 ∧
    (normalize_to_ratio_pad (constImg 2000 500) (ratio_to_float (960, 960)) whiteC).width
      = 2000 ∧
    (normalize_to_ratio_pad (constImg 2000 500) (ratio_to_float (960, 960)) whiteC).height
      = 2000 := by
  have h720 : ratio (constImg 1280 720) = 16/9 := by
    norm_num [ratio, constImg]
  have ht169 : ratio_to_float (1280, 720) = 16/9 := by
    norm_num [ratio_to_float]
  have ht1 : ratio_to_float (960, 960) = 1 := by
    norm_num [ratio_to_float]
  have hA : normalize_to_ratio_pad (constImg 1280 720) (ratio_to_float (1280, 720)) whiteC
      = constImg 1280 720 := by
    rw [normalize_to_ratio_pad, clampPhase_of_inrange _ _ ?h1 ?h2,
      ratioMatch_of_near _ _ _ ?h3]
    case h1 =>
      rw [h720]
      norm_num
    case h2 =>
      rw [h720]
      norm_num
    case h3 =>
      rw [h720, ht169, sub_self, abs_zero]
      norm_num
  have hcl : clampPhase whiteC (constImg 2000 500)
      = padToHeight whiteC (constImg 2000 500) 1000 := by
    rw [clampPhase_of_wide _ _ (by norm_num [ratio, constImg])]
    rw [show (((constImg 2000 500).width : ℚ) / 2) = ((1000:ℤ):ℚ) by norm_num,
      bankerRound_intCast]
    rfl
  have hB : normalize_to_ratio_pad (constImg 2000 500) (ratio_to_float (960, 960)) whiteC
      = padToHeight whiteC (padToHeight whiteC (constImg 2000 500) 1000) 2000 := by
    rw [normalize_to_ratio_pad, hcl]
    have hrB : ratio (padToHeight whiteC (constImg 2000 500) 1000) = 2 := by
      norm_num [ratio]
    rw [ratioMatch_of_far_wide _ _ _ ?hf ?hg]
    case hf =>
      rw [hrB, ht1, show (2:ℚ) - 1 = 1 by norm_num, abs_one]
      norm_num
    case hg =>
      rw [hrB, ht1]
      norm_num
    rw [show (((padToHeight whiteC (constImg 2000 500) 1000).width : ℚ)
        / ratio_to_float (960, 960)) = ((2000:ℤ):ℚ) by rw [ht1]; norm_num,
      bankerRound_intCast]
    rfl
  exact ⟨hA, by rw [hcl]; rfl, by rw [hcl]; rfl, by rw [hB]; rfl, by rw [hB]; rfl⟩

/-! ### Claim C2: behaviour of the poll loop on all-pending responses -/

/-- Counterexample to C2 as stated: the poll loop of `app.py` has no poll
budget at all.  After the example budget of 5 iterations is exhausted with
only pending responses, the controller is still `Pending` (the `while True:`
loop keeps iterating, with 5 polls and 5 sleeps so far) — it does not reach
the terminal state `TimedOut`. -/
theorem c2_counterexample :
    poll_task (List.replicate 5 pendingResp) 0 0 = PollResult.running 5 5 ∧
    controllerState (List.replicate 5 pendingResp) = LifecycleState.Pending ∧
    LifecycleState.Pending ≠ LifecycleState.TimedOut := by
  refine ⟨by decide, by decide, by decide⟩

/-- C2 (amended): the poll loop has no caller-supplied budget and never
times out client-side: for every sequence of only pending-class responses
the loop polls once and sleeps once per response and is still running (the
controller stays in `Pending`, reaching neither `TimedOut` nor `Failed`). -/
theorem c2_poll_pending_unbounded (l : List TaskResp)
    (hp : ∀ js ∈ l, classifyState (getState js) = StatusClass.pending) :
    poll_task l 0 0 = PollResult.running l.length l.length ∧
    controllerState l = LifecycleState.Pending := by
  have h := poll_task_all_pending l hp 0 0
  simp only [Nat.zero_add] at h
  refine ⟨h, ?_⟩
  rw [controllerState, h]

/-- Witness for C2 (amended) at three consecutive pending responses. -/
theorem c2_witness :
    poll_task (List.replicate 3 pendingResp) 0 0 = PollResult.running 3 3 ∧
    controllerState (List.replicate 3 pendingResp) = LifecycleState.Pending := by
  have h := c2_poll_pending_unbounded (List.replicate 3 pendingResp) (by decide)
  simpa using h

/-! ### Claim C6: status-string classification -/

/-- Counterexample to C6 as stated: the lowercase token `"failed"` is not
classified as terminal failure — the membership tests match the exact
strings only, so `"failed"` (and likewise the case variant `"Completed"` of
`"completed"`) falls through to pending. -/
theorem c6_counterexample :
    classify "failed" = StatusClass.pending ∧
    StatusClass.pending ≠ StatusClass.failure ∧
    classify "Completed" = StatusClass.pending := by
  refine ⟨by decide, by decide, by decide⟩

/-- C6 (amended): classification is by exact string match: precisely the
tokens `"SUCCEEDED"`, `"COMPLETED"`, `"succeeded"` are terminal success,
precisely `"FAILED"`, `"ERROR"`, `"CANCELLED"` are terminal failure, and
every other status string — including other case variants such as
`"failed"` or `"Completed"` — is treated as pending. -/
theorem c6_classification (s : String) :
    ((s = "SUCCEEDED" ∨ s = "COMPLETED" ∨ s = "succeeded") →
      classify s = StatusClass.success) ∧
    ((s = "FAILED" ∨ s = "ERROR" ∨ s = "CANCELLED") →
      classify s = StatusClass.failure) ∧
    (¬ (s = "SUCCEEDED" ∨ s = "COMPLETED" ∨ s = "succeeded") →
      ¬ (s = "FAILED" ∨ s = "ERROR" ∨ s = "CANCELLED") →
      classify s = StatusClass.pending) := by
  refine ⟨?_, ?_, ?_⟩
  · intro h
    rcases h with h | h | h <;> rw [h] <;> decide
  · intro h
    rcases h with h | h | h <;> rw [h] <;> decide
  · intro h1 h2
    rw [classify, classifyState, if_neg, if_neg]
    · simpa using h2
    · simpa using h1

/-- Witness for C6 (amended) at one token of each class. -/
theorem c6_witness :
    classify "SUCCEEDED" = StatusClass.success ∧
    classify "CANCELLED" = StatusClass.failure ∧
    classify "THROTTLED" = StatusClass.pending :=
  ⟨(c6_classification "SUCCEEDED").1 (Or.inl rfl),
   (c6_classification "CANCELLED").2.1 (Or.inr (Or.inr rfl)),
   (c6_classification "THROTTLED").2.2 (by decide) (by decide)⟩

/-! ### Claim C7: a failure-class response ends the loop at once -/

/-- C7 (confirmed): for every response sequence consisting of pending
responses followed by a failure-class response (and anything after it), the
poll loop raises on the failure immediately: exactly `pre.length + 1` polls
are issued (the responses after the failure are never requested), exactly
`pre.length` sleeps happen (no delay follows the failing poll), and the raw
payload `js` of the failing response is carried out verbatim. -/
theorem c7_fail_stops (pre : List TaskResp) (js : TaskResp) (rest : List TaskResp)
    (hp : ∀ x ∈ pre, classifyState (getState x) = StatusClass.pending)
    (hf : classifyState (getState js) = StatusClass.failure) :
    poll_task (pre ++ js :: rest) 0 0
      = PollResult.failed js (pre.length + 1) pre.length := by
  rw [poll_task_skip_pending pre hp (js :: rest) 0 0]
  rw [poll_task_fail_first js hf rest]
  simp [Nat.add_comm]

/-- Witness for C7: one pending response, then a failure, then a further
response that is never polled. -/
theorem c7_witness :
    poll_task [pendingResp, failedResp, pendingResp] 0 0
      = PollResult.failed failedResp 2 1 := by
  have h := c7_fail_stops [pendingResp] failedResp [pendingResp]
    (by decide) (by decide)
  simpa using h

/-! ### Claim C8: promptImage assembly -/

/-- C8 (confirmed): with exactly one encoded image the request's
`promptImage` field is the bare URI string; with `N > 1` images it is an
ordered list of length `N` whose element 0 is the first URI tagged
`"first"` and whose elements `1..N-1` are the remaining URIs each tagged
`"last"`. -/
theorem c8_assembly (model ratioStr : String) (dur : ℤ) (txt : String)
    (u : String) (rest : List String) :
    (rest = [] →
      (start_task model ratioStr dur txt (u :: rest)).map Payload.promptImage
        = some (PromptImage.single u)) ∧
    (rest ≠ [] →
      (start_task model ratioStr dur txt (u :: rest)).map Payload.promptImage
        = some (PromptImage.multi
            ((u, "first") :: rest.map (fun v => (v, "last")))) ∧
      ((u, "first") :: rest.map (fun v => (v, "last"))).length
        = (u :: rest).length ∧
      (∀ i : ℕ,
        ∀ hi : i < ((u, "first") :: rest.map (fun v => (v, "last"))).length,
        1 ≤ i →
        ((u, "first") :: rest.map (fun v => (v, "last"))).get ⟨i, hi⟩
          = ((u :: rest).getD i "", "last"))) := by
  constructor
  · intro h
    subst h
    rfl
  · intro h
    rcases rest with _ | ⟨v, vs⟩
    · exact absurd rfl h
    · refine ⟨rfl, by simp, ?_⟩
      intro i hi h1
      rcases i with _ | j
      · omega
      · simp only [List.get_eq_getElem, List.getElem_cons_succ, List.getD_cons_succ]
        have hj : j < ((v, "last") :: vs.map (fun v => (v, "last"))).length := by
          simpa using hi
        have hj2 : j < (v :: vs).length := by simpa using hj
        rw [List.getD_eq_getElem (v :: vs) "" hj2]
        rcases j with _ | k
        · rfl
        · simp only [List.getElem_cons_succ]
          have hk : k < vs.length := by simpa using hj2
          simp [List.getElem_map]

/-- Witness for C8: both branches at concrete inputs. -/
theorem c8_witness :
    (start_task "gen4_turbo" "1280:720" 5 "p" ["a"]).map Payload.promptImage
      = some (PromptImage.single "a") ∧
    (start_task "gen4_turbo" "1280:720" 5 "p" ["a", "b", "c"]).map Payload.promptImage
      = some (PromptImage.multi [("a", "first"), ("b", "last"), ("c", "last")]) := by
  constructor
  · exact (c8_assembly "gen4_turbo" "1280:720" 5 "p" "a" []).1 rfl
  · have h := (c8_assembly "gen4_turbo" "1280:720" 5 "p" "a" ["b", "c"]).2 (by decide)
    simpa using h.1

/-! ### Claim C10: the submitted seed is a hard-coded constant -/

/-- C10 (confirmed): for every invocation of the submit action, the `seed`
field of the request body is the constant `123456789`, regardless of the
seed value selected in the UI — the UI seed is never forwarded (`start_task`
takes no seed parameter, and the body hard-codes the literal). -/
theorem c10_seed_constant (uiSeed : ℤ) (model ratioStr : String) (dur : ℤ)
    (txt : String) (uris : List String) :
    (∀ p : Payload,
      uiSubmit uiSeed model ratioStr dur txt uris = some p → p.seed = 123456789) ∧
    (∀ uiSeed2 : ℤ,
      uiSubmit uiSeed model ratioStr dur txt uris
        = uiSubmit uiSeed2 model ratioStr dur txt uris) := by
  constructor
  · intro p hp
    rw [uiSubmit, start_task] at hp
    rcases hb : buildPromptImage uris with _ | pi
    · rw [hb] at hp
      simp at hp
    · rw [hb] at hp
      have hp2 : some (Payload.mk model txt ratioStr dur 123456789 pi) = some p := hp
      cases Option.some.inj hp2
      rfl
  · intro _
    rfl

/-- Witness for C10: a concrete submission with UI seed 42 still carries
seed 123456789. -/
theorem c10_witness :
    uiSubmit 42 "gen4_turbo" "1280:720" 10 "p" ["u"] = some payloadA ∧
    payloadA.seed = 123456789 :=
  ⟨rfl, (c10_seed_constant 42 "gen4_turbo" "1280:720" 10 "p" ["u"]).1 payloadA rfl⟩

end Runway
